import Mathlib

/-!
Shallow embedding of the settlement core of the payment-gateway-ethiopia
repository, and proofs of the specification's claims about it.

Embedded source files:
* internal/domain (currency, payment status, payment record, request validation)
* internal/repository (Postgres-backed payment store: Create with a unique
  constraint on reference, GetByID/GetByReference, UpdateStatusIfPending as a
  row-locked transaction)
* internal/service/payment.go (CreatePayment: validate, duplicate check,
  insert, publish-after-commit; ProcessPayment: fetch, decide, conditional
  update)
* internal/worker (processMessageWithRetry and the worker ack/nack loop)

Modelling conventions:
* UUIDs and timestamps are `Nat`; `DECIMAL` amounts are `Rat`.
* The database table is a `List Payment`; the unique constraint on
  `reference` is the guard of `create`; `UpdateStatusIfPending`'s transaction
  (SELECT ... FOR UPDATE; conditional UPDATE; COMMIT) holds the row lock for
  its whole extent, so the transaction is one atomic step on the store, and a
  concurrent execution is an interleaving of such atomic steps.
* The random settlement decision (`rand.Float64() < successRate`) is an
  oracle boolean `decideSuccess`; a transient database failure is an injected
  boolean `fault` that makes the store call return `ErrDatabase`.
* Fallible Go calls return `Except DomainErr`; functions that may write
  return the (possibly unchanged) store alongside the result.
-/

/-- internal/domain: `type Currency string` with the two valid values. -/
inductive Currency
  | ETB
  | USD
deriving DecidableEq, Repr

/-- internal/domain: `func (c Currency) IsValid() bool`. Only the two declared
constants are representable in the embedding, so this is always true; kept to
mirror the source's validation call. -/
def Currency.IsValid (c : Currency) : Bool :=
  c == Currency.ETB || c == Currency.USD

/-- internal/domain: `type PaymentStatus string` with the three declared values
(`PENDING`, `SUCCESS`, `FAILED`); the database schema CHECK-constrains the
column to exactly these. -/
inductive PaymentStatus
  | PENDING
  | SUCCESS
  | FAILED
deriving DecidableEq, Repr

/-- internal/domain: `func (s PaymentStatus) IsTerminal() bool`. -/
def PaymentStatus.IsTerminal (s : PaymentStatus) : Bool :=
  s == PaymentStatus.SUCCESS || s == PaymentStatus.FAILED

/-- internal/domain: the `Payment` record. UUIDs and timestamps are `Nat`,
amounts `Rat`. -/
structure Payment where
  id : Nat
  amount : Rat
  currency : Currency
  reference : String
  status : PaymentStatus
  description : String
  customerName : String
  bankCode : String
  createdAt : Nat
  updatedAt : Nat
deriving DecidableEq, Repr

/-- internal/domain: `CreatePaymentRequest`. -/
structure CreatePaymentRequest where
  amount : Rat
  currency : Currency
  reference : String
  description : String
  customerName : String
  bankCode : String
deriving DecidableEq, Repr

/-- internal/domain: `func (r *CreatePaymentRequest) Validate() error`,
returning `some message` for the `errors.New(message)` the Go code returns and
`none` for nil. Reference length is character count (the references in play
are ASCII, where Go's byte length agrees). -/
def CreatePaymentRequest.Validate (r : CreatePaymentRequest) : Option String :=
  if r.amount ≤ 0 then some "amount must be greater than zero"
  else if r.currency.IsValid = false then some "currency must be ETB or USD"
  else if r.reference.length < 5 then some "reference must be at least 5 characters"
  else if r.reference.length > 50 then some "reference is too long"
  else if r.currency = Currency.ETB ∧ r.amount > 100000 ∧ r.description = "" then
    some "description is required for large ETB payments"
  else none

/-- internal/domain error values (`ErrPaymentNotFound`, `ErrPaymentAlreadyExists`,
`ErrPaymentNotPending`, `ErrDatabase`), plus the `errors.New` validation
messages and the worker's json unmarshal failure. -/
inductive DomainErr
  | PaymentNotFound
  | PaymentAlreadyExists
  | PaymentNotPending
  | Database
  | validation (msg : String)
  | unmarshal
deriving DecidableEq, Repr

/-- The payments table: one row per payment. -/
abbrev Store := List Payment

/-- Row lookup by primary key (`WHERE id = $1`). -/
def findByID (s : Store) (pid : Nat) : Option Payment :=
  s.find? (fun p => p.id == pid)

/-- Status of the payment with the given id, if present. -/
def statusOf (s : Store) (pid : Nat) : Option PaymentStatus :=
  (findByID s pid).map Payment.status

/-- updatedAt of the payment with the given id, if present. -/
def updatedAtOf (s : Store) (pid : Nat) : Option Nat :=
  (findByID s pid).map Payment.updatedAt

/-- Number of rows carrying a given reference; the schema's UNIQUE constraint
keeps this at most 1. -/
def refCount (s : Store) (ref : String) : Nat :=
  s.countP (fun p => p.reference == ref)

/-- internal/repository `Create`: `INSERT ... ON CONFLICT (reference) DO NOTHING
RETURNING id`; a conflict yields no row, which the code maps to
`ErrPaymentAlreadyExists`. The insert and its uniqueness check are one atomic
statement. -/
def create (s : Store) (p : Payment) : Except DomainErr Unit × Store :=
  if s.any (fun q => q.reference == p.reference) then
    (Except.error DomainErr.PaymentAlreadyExists, s)
  else
    (Except.ok (), s ++ [p])

/-- internal/repository `GetByID`: point lookup, `ErrPaymentNotFound` when the
row is absent. -/
def getByID (s : Store) (pid : Nat) : Except DomainErr Payment :=
  match findByID s pid with
  | some p => Except.ok p
  | none => Except.error DomainErr.PaymentNotFound

/-- internal/repository `GetByReference`: point lookup by reference. -/
def getByReference (s : Store) (ref : String) : Except DomainErr Payment :=
  match s.find? (fun p => p.reference == ref) with
  | some p => Except.ok p
  | none => Except.error DomainErr.PaymentNotFound

/-- internal/repository `UpdateStatusIfPending` (part_002 lines 162-211): in a
transaction, `SELECT status ... FOR UPDATE` (absent row gives
`ErrPaymentNotFound`); if the locked status is not `PENDING`, commit nothing
and return `(false, nil)`; otherwise `UPDATE ... SET status, updated_at` and
commit, returning `(true, nil)`. The row lock is held from the SELECT through
COMMIT, so the whole transaction is a single atomic step on the store. -/
def updateStatusIfPending (s : Store) (pid : Nat) (newStatus : PaymentStatus)
    (now : Nat) : Except DomainErr Bool × Store :=
  match findByID s pid with
  | none => (Except.error DomainErr.PaymentNotFound, s)
  | some p =>
    if p.status ≠ PaymentStatus.PENDING then
      (Except.ok false, s)
    else
      (Except.ok true,
        s.map (fun q =>
          if q.id == pid then { q with status := newStatus, updatedAt := now } else q))

/-- Observable effects of the service's create path, in program order:
the database commit of the new payment row, then (on success of the broker
call) the published settlement task. -/
inductive Event
  | committed (pid : Nat)
  | published (pid : Nat)
deriving DecidableEq, Repr

/-- internal/service `CreatePayment` lines 67-80: the payment record built from
the request, always in status `PENDING`, with `createdAt = updatedAt = now`. -/
def buildPayment (req : CreatePaymentRequest) (newID now : Nat) : Payment :=
  { id := newID
    amount := req.amount
    currency := req.currency
    reference := req.reference
    status := PaymentStatus.PENDING
    description := req.description
    customerName := req.customerName
    bankCode := req.bankCode
    createdAt := now
    updatedAt := now }

/-- internal/service `CreatePayment`: validate the request; look up the
reference and fail with `ErrPaymentAlreadyExists` if a payment already carries
it; insert via the repository's atomic `create`; then publish the settlement
task (`publisher.PublishPaymentCreated`). `publishOk` is the oracle for
whether the broker accepts the publish; on publish failure the code only logs
("We still return success, as payment is created in database") — the payment
is not rolled back. The event trace records, in program order, the durable
commit and the successful publish. -/
def serviceCreatePayment (s : Store) (req : CreatePaymentRequest)
    (newID now : Nat) (publishOk : Bool) :
    Except DomainErr Payment × Store × List Event :=
  match req.Validate with
  | some msg => (Except.error (DomainErr.validation msg), s, [])
  | none =>
    match getByReference s req.reference with
    | Except.ok _ => (Except.error DomainErr.PaymentAlreadyExists, s, [])
    | Except.error _ =>
      let p := buildPayment req newID now
      match create s p with
      | (Except.error e, s') => (Except.error e, s', [])
      | (Except.ok _, s') =>
        (Except.ok p, s',
          Event.committed p.id :: (if publishOk then [Event.published p.id] else []))

/-- internal/service `ProcessPayment` lines 178-186: the simulated settlement
decision (`rand.Float64() < successRate`) reduced to its outcome; the mapping
of the boolean to the written status. -/
def decideStatus (decideSuccess : Bool) : PaymentStatus :=
  if decideSuccess then PaymentStatus.SUCCESS else PaymentStatus.FAILED

/-- internal/service `ProcessPayment` (payment.go lines 150-209): fetch the
payment (`GetByID`), compute the decision, then `UpdateStatusIfPending`.
Errors from the store propagate; `updated = false` (already processed) returns
nil — "Idempotent - no error if already processed". `fault = true` injects a
transient store failure (`ErrDatabase`), in which case nothing is written. -/
def processPayment (s : Store) (pid : Nat) (decideSuccess fault : Bool)
    (now : Nat) : Except DomainErr Unit × Store :=
  if fault then (Except.error DomainErr.Database, s)
  else
    match getByID s pid with
    | Except.error e => (Except.error e, s)
    | Except.ok _ =>
      match updateStatusIfPending s pid (decideStatus decideSuccess) now with
      | (Except.error e, s') => (Except.error e, s')
      | (Except.ok _, s') => (Except.ok (), s')

/-- A broker delivery as the worker sees it: whether `json.Unmarshal` of the
body succeeds, the payment id it carries, and the `retry_count` header (0 when
absent — the publisher always sets it to 0). -/
structure Delivery where
  parseOk : Bool
  paymentID : Nat
  retryCount : Nat
deriving DecidableEq, Repr

/-- What the worker loop does with the delivery: `Ack(false)` removes the task;
`Nack(false, false)` (requeue = false) is routed by the queue's
`x-dead-letter-exchange` declaration to the dead-letter queue — it never
returns to the live queue. -/
inductive WorkerAction
  | ack
  | deadLetter
deriving DecidableEq, Repr

/-- Outcome of handling one delivery: the broker action, the resulting store,
and whether `ProcessPayment` (which performs the fetch, the decision and the
conditional transition) was invoked at all. -/
structure WorkerResult where
  action : WorkerAction
  store : Store
  processCalled : Bool
deriving DecidableEq, Repr

/-- internal/worker `processMessageWithRetry` (part_001 lines 89-139): an
unmarshal failure returns that error; a `retry_count` header above 3 returns
`ErrPaymentNotPending` ("Max retries exceeded, sending to DLQ") — both before
`ProcessPayment` is ever called. Otherwise `ProcessPayment` runs:
`ErrPaymentNotPending` from it is swallowed as success ("Payment already
processed, acknowledging message"); any other error is returned. The result is
the returned error (`none` = nil), the store, and whether `ProcessPayment`
ran. -/
def processMessageWithRetry (s : Store) (d : Delivery)
    (decideSuccess fault : Bool) (now : Nat) :
    Option DomainErr × Store × Bool :=
  if d.parseOk = false then (some DomainErr.unmarshal, s, false)
  else if d.retryCount > 3 then (some DomainErr.PaymentNotPending, s, false)
  else
    match processPayment s d.paymentID decideSuccess fault now with
    | (Except.ok _, s') => (none, s', true)
    | (Except.error DomainErr.PaymentNotPending, s') => (none, s', true)
    | (Except.error e, s') => (some e, s', true)

/-- internal/worker `worker` (part_001 lines 75-84): a nil result from
`processMessageWithRetry` is acknowledged (`delivery.Ack(false)`); an error is
`delivery.Nack(false, false)` — "Don't requeue, send to DLQ". -/
def workerHandle (s : Store) (d : Delivery) (decideSuccess fault : Bool)
    (now : Nat) : WorkerResult :=
  match processMessageWithRetry s d decideSuccess fault now with
  | (none, s', c) => { action := WorkerAction.ack, store := s', processCalled := c }
  | (some _, s', c) => { action := WorkerAction.deadLetter, store := s', processCalled := c }

/-- Repeated settlement attempts against one payment, each an atomic
`UpdateStatusIfPending` transaction as issued by `ProcessPayment`: every
attempt carries its decision outcome and timestamp. Returns each attempt's
`applied` flag (an attempt that errors applies nothing, recorded `false`) and
the final store. -/
def runAttempts (s : Store) (pid : Nat) :
    List (Bool × Nat) → List Bool × Store
  | [] => ([], s)
  | (d, t) :: rest =>
    match updateStatusIfPending s pid (decideStatus d) t with
    | (Except.ok b, s') =>
      let (bs, s'') := runAttempts s' pid rest
      (b :: bs, s'')
    | (Except.error _, s') =>
      let (bs, s'') := runAttempts s' pid rest
      (false :: bs, s'')

/-- Program position of one concurrent `CreatePayment` call, at the
granularity of its atomic store operations: the `GetByReference` duplicate
check, then the repository's atomic `create` (the `INSERT ... ON CONFLICT`),
then finished with the call's result. -/
inductive CallPhase
  | toCheck
  | toInsert
  | done (r : Except DomainErr Unit)
deriving Repr

/-- Shared store plus the positions of the two racing create calls. -/
structure RaceState where
  store : Store
  phaseA : CallPhase
  phaseB : CallPhase
deriving Repr

/-- One atomic step of a `CreatePayment` call for payment `p`
(service payment.go lines 57-86): the duplicate check returns
`ErrPaymentAlreadyExists` when a payment with the reference exists, else the
call proceeds to the insert; the insert finishes the call with `create`'s
result. A finished call does not move. -/
def stepCreateCall (s : Store) (p : Payment) : CallPhase → CallPhase × Store
  | CallPhase.toCheck =>
    match getByReference s p.reference with
    | Except.ok _ => (CallPhase.done (Except.error DomainErr.PaymentAlreadyExists), s)
    | Except.error _ => (CallPhase.toInsert, s)
  | CallPhase.toInsert =>
    match create s p with
    | (Except.ok _, s') => (CallPhase.done (Except.ok ()), s')
    | (Except.error e, s') => (CallPhase.done (Except.error e), s')
  | CallPhase.done r => (CallPhase.done r, s)

/-- Interleaving step: `true` lets call A take its next atomic store
operation, `false` lets call B. -/
def raceStep (pA pB : Payment) (st : RaceState) : Bool → RaceState
  | true =>
    { store := (stepCreateCall st.store pA st.phaseA).2
      phaseA := (stepCreateCall st.store pA st.phaseA).1
      phaseB := st.phaseB }
  | false =>
    { store := (stepCreateCall st.store pB st.phaseB).2
      phaseA := st.phaseA
      phaseB := (stepCreateCall st.store pB st.phaseB).1 }

/-- Run an arbitrary interleaving schedule of the two create calls. -/
def raceRun (pA pB : Payment) (st : RaceState) : List Bool → RaceState
  | [] => st
  | b :: bs => raceRun pA pB (raceStep pA pB st b) bs

/-- Whether a call has finished successfully. -/
def okBool : CallPhase → Bool
  | CallPhase.done (Except.ok _) => true
  | _ => false

/-- Whether a call has finished with `ErrPaymentAlreadyExists`. -/
def aeBool : CallPhase → Bool
  | CallPhase.done (Except.error DomainErr.PaymentAlreadyExists) => true
  | _ => false

/-- Whether a call has finished. -/
def doneBool : CallPhase → Bool
  | CallPhase.done _ => true
  | _ => false

/-- Invariant of the create race for a reference `ref`: the number of rows
with that reference equals the number of calls that finished successfully and
never exceeds one; a finished call is either successful or rejected with
`AlreadyExists`; a rejection can only have happened with the row present; and
every row with the reference is a freshly inserted `PENDING` payment. -/
def raceInv (ref : String) (st : RaceState) : Prop :=
  refCount st.store ref = (okBool st.phaseA).toNat + (okBool st.phaseB).toNat ∧
  refCount st.store ref ≤ 1 ∧
  (doneBool st.phaseA = true → okBool st.phaseA = true ∨ aeBool st.phaseA = true) ∧
  (doneBool st.phaseB = true → okBool st.phaseB = true ∨ aeBool st.phaseB = true) ∧
  (aeBool st.phaseA = true → refCount st.store ref ≠ 0) ∧
  (aeBool st.phaseB = true → refCount st.store ref ≠ 0) ∧
  (∀ q ∈ st.store, q.reference = ref → q.status = PaymentStatus.PENDING)

/-- Concrete pending payment used to exercise the worker model on the
transient-store-error scenario. -/
def pendingPayment1 : Payment :=
  { id := 1
    amount := 100
    currency := Currency.ETB
    reference := "CBE-2023-000001"
    status := PaymentStatus.PENDING
    description := ""
    customerName := "Abebe"
    bankCode := "CBE"
    createdAt := 0
    updatedAt := 0 }

/-- Store holding exactly that pending payment. -/
def pendingStore : Store := [pendingPayment1]

/-- Concrete payment already settled successfully, for redelivery scenarios. -/
def settledPayment2 : Payment :=
  { pendingPayment1 with
    id := 2
    reference := "CBE-2023-000002"
    status := PaymentStatus.SUCCESS }

/-- Store holding one settled payment. -/
def settledStore : Store := [settledPayment2]

/-- Concrete well-formed create request used by witnesses. -/
def sampleRequest : CreatePaymentRequest :=
  { amount := 1500
    currency := Currency.ETB
    reference := "CBE-2023-001234"
    description := "Coffee export payment"
    customerName := "Abebe"
    bankCode := "CBE" }

/-- First of the two racing create calls' payments (same reference). -/
def wpA : Payment := buildPayment sampleRequest 10 0

/-- Second of the two racing create calls' payments (same reference,
different id and customer). -/
def wpB : Payment :=
  { buildPayment sampleRequest 11 0 with customerName := "Bekele" }

/-- Both representable currencies pass `IsValid`, as both declared Go
constants do. -/
theorem Currency.isValid_eq_true (c : Currency) : c.IsValid = true := by
  cases c <;> rfl

/-- The settlement decision always maps to a terminal status. -/
theorem decideStatus_isTerminal (d : Bool) : (decideStatus d).IsTerminal = true := by
  cases d <;> rfl

/-- A terminal status is not `PENDING`. -/
theorem PaymentStatus.ne_pending_of_isTerminal {st : PaymentStatus}
    (h : st.IsTerminal = true) : st ≠ PaymentStatus.PENDING := by
  cases st <;> simp_all [PaymentStatus.IsTerminal]

/-- A row found by id carries that id. -/
theorem findByID_eq_some_id {s : Store} {pid : Nat} {p : Payment}
    (h : findByID s pid = some p) : p.id = pid := by
  rw [findByID] at h
  simpa using List.find?_some h

/-- Lookup by id commutes with mapping an id-preserving function over the
table. -/
theorem findByID_map_preserving (f : Payment → Payment)
    (hf : ∀ q, (f q).id = q.id) (s : Store) (pid : Nat) :
    findByID (s.map f) pid = (findByID s pid).map f := by
  induction s with
  | nil => rfl
  | cons a t ih =>
    by_cases h : a.id = pid
    · rw [findByID, List.map_cons,
        List.find?_cons_of_pos _ (by simp [hf, h]),
        show findByID (a :: t) pid = some a from
          by rw [findByID, List.find?_cons_of_pos _ (by simp [h])]]
      rfl
    · rw [findByID, List.map_cons,
        List.find?_cons_of_neg _ (by simp [hf, h]),
        show findByID (a :: t) pid = findByID t pid from
          by rw [findByID, findByID, List.find?_cons_of_neg _ (by simp [h])]]
      exact ih

/-- The per-row update of `UpdateStatusIfPending` preserves row ids. -/
theorem setStatus_id (pid : Nat) (ns : PaymentStatus) (now : Nat) (q : Payment) :
    (if q.id == pid then { q with status := ns, updatedAt := now } else q).id = q.id := by
  by_cases h : q.id = pid
  · simp [h]
  · simp [h]

/-- After the conditional write, the targeted row's status is the new one. -/
theorem statusOf_update_self {s : Store} {pid : Nat} {p : Payment}
    (ns : PaymentStatus) (now : Nat) (h : findByID s pid = some p) :
    statusOf
      (s.map fun q => if q.id == pid then { q with status := ns, updatedAt := now } else q)
      pid = some ns := by
  have hid := findByID_eq_some_id h
  rw [statusOf, findByID_map_preserving _ (setStatus_id pid ns now), h]
  simp [hid]

/-- After the conditional write, the targeted row's `updatedAt` is refreshed. -/
theorem updatedAtOf_update_self {s : Store} {pid : Nat} {p : Payment}
    (ns : PaymentStatus) (now : Nat) (h : findByID s pid = some p) :
    updatedAtOf
      (s.map fun q => if q.id == pid then { q with status := ns, updatedAt := now } else q)
      pid = some now := by
  have hid := findByID_eq_some_id h
  rw [updatedAtOf, findByID_map_preserving _ (setStatus_id pid ns now), h]
  simp [hid]

/-- The conditional write leaves every other payment's status untouched. -/
theorem statusOf_update_other {s : Store} {pid pid2 : Nat}
    (ns : PaymentStatus) (now : Nat) (hne : pid2 ≠ pid) :
    statusOf
      (s.map fun q => if q.id == pid then { q with status := ns, updatedAt := now } else q)
      pid2 = statusOf s pid2 := by
  rw [statusOf, statusOf, findByID_map_preserving _ (setStatus_id pid ns now)]
  cases hf : findByID s pid2 with
  | none => rfl
  | some q =>
    have hid := findByID_eq_some_id hf
    simp [hid, hne]

/-- Contract of `UpdateStatusIfPending` on an absent id: `ErrPaymentNotFound`, no write. -/
theorem updateStatusIfPending_notFound {s : Store} {pid : Nat}
    (ns : PaymentStatus) (now : Nat) (h : findByID s pid = none) :
    updateStatusIfPending s pid ns now = (Except.error DomainErr.PaymentNotFound, s) := by
  simp [updateStatusIfPending, h]

/-- Contract of `UpdateStatusIfPending` on a terminal row: `(false, nil)`, no write. -/
theorem updateStatusIfPending_terminal {s : Store} {pid : Nat} {p : Payment}
    (ns : PaymentStatus) (now : Nat)
    (hf : findByID s pid = some p) (hp : p.status.IsTerminal = true) :
    updateStatusIfPending s pid ns now = (Except.ok false, s) := by
  have hne := PaymentStatus.ne_pending_of_isTerminal hp
  simp [updateStatusIfPending, hf, hne]

/-- Contract of `UpdateStatusIfPending` on a pending row: `(true, nil)` and the guarded
write. -/
theorem updateStatusIfPending_pending {s : Store} {pid : Nat} {p : Payment}
    (ns : PaymentStatus) (now : Nat)
    (hf : findByID s pid = some p) (hp : p.status = PaymentStatus.PENDING) :
    updateStatusIfPending s pid ns now =
      (Except.ok true,
        s.map fun q => if q.id == pid then { q with status := ns, updatedAt := now } else q) := by
  simp [updateStatusIfPending, hf, hp]

/-- The status observation determines a found row with that status. -/
theorem statusOf_eq_some {s : Store} {pid : Nat} {st : PaymentStatus}
    (h : statusOf s pid = some st) :
    ∃ p, findByID s pid = some p ∧ p.status = st := by
  rw [statusOf] at h
  cases hf : findByID s pid with
  | none => rw [hf] at h; cases h
  | some p => rw [hf] at h; exact ⟨p, rfl, by simpa using h⟩

/-- Case analysis for the status of any payment across one conditional
transition: either it is untouched, or it moved from `PENDING` to the written
status. -/
theorem statusOf_update_cases (s : Store) (pid pid2 : Nat)
    (ns : PaymentStatus) (now : Nat) :
    statusOf (updateStatusIfPending s pid ns now).2 pid2 = statusOf s pid2 ∨
    (statusOf s pid2 = some PaymentStatus.PENDING ∧
      statusOf (updateStatusIfPending s pid ns now).2 pid2 = some ns) := by
  cases hf : findByID s pid with
  | none => rw [updateStatusIfPending_notFound ns now hf]; exact Or.inl rfl
  | some p =>
    by_cases hp : p.status = PaymentStatus.PENDING
    · rw [updateStatusIfPending_pending ns now hf hp]
      by_cases h2 : pid2 = pid
      · subst h2
        refine Or.inr ⟨?_, statusOf_update_self ns now hf⟩
        rw [statusOf, hf]
        simpa using hp
      · exact Or.inl (statusOf_update_other ns now h2)
    · have hs : updateStatusIfPending s pid ns now = (Except.ok false, s) := by
        simp [updateStatusIfPending, hf, hp]
      rw [hs]
      exact Or.inl rfl

/-- The store `ProcessPayment` leaves behind: the result of the conditional transition when the
fetch succeeds and no fault is injected. -/
theorem processPayment_store_eq {s : Store} {pid : Nat} {p : Payment}
    (dec : Bool) (now : Nat) (hg : getByID s pid = Except.ok p) :
    (processPayment s pid dec false now).2
      = (updateStatusIfPending s pid (decideStatus dec) now).2 := by
  rw [processPayment]
  simp only [if_neg (by simp : ¬(false = true))]
  rw [hg]
  rcases h : updateStatusIfPending s pid (decideStatus dec) now with ⟨r, s'⟩
  cases r <;> simp

/-- Case analysis for the status of any payment across one `ProcessPayment`:
either untouched, or moved from `PENDING` to the decision's outcome. -/
theorem statusOf_processPayment_cases (s : Store) (pid pid2 : Nat)
    (dec fault : Bool) (now : Nat) :
    statusOf (processPayment s pid dec fault now).2 pid2 = statusOf s pid2 ∨
    (statusOf s pid2 = some PaymentStatus.PENDING ∧
      statusOf (processPayment s pid dec fault now).2 pid2
        = some (decideStatus dec)) := by
  by_cases hfa : fault = true
  · subst hfa; left; rw [processPayment]; simp
  · have hfa' : fault = false := by
      cases fault
      · rfl
      · exact absurd rfl hfa
    subst hfa'
    cases hg : getByID s pid with
    | error e => left; rw [processPayment]; simp [hg]
    | ok p =>
      rw [processPayment_store_eq dec now hg]
      exact statusOf_update_cases s pid pid2 (decideStatus dec) now

/-- C2: the conditional transition `UpdateStatusIfPending` writes the target
state and refreshes `updatedAt` returning `applied = true` on a `PENDING`
payment; performs no write and returns `applied = false` without error on a
terminal payment; and fails with `ErrPaymentNotFound` when the id is absent. -/
theorem updateStatusIfPending_contract
    (s : Store) (pid : Nat) (ns : PaymentStatus) (now : Nat) :
    (∀ p, findByID s pid = some p → p.status = PaymentStatus.PENDING →
      (updateStatusIfPending s pid ns now).1 = Except.ok true ∧
      statusOf (updateStatusIfPending s pid ns now).2 pid = some ns ∧
      updatedAtOf (updateStatusIfPending s pid ns now).2 pid = some now) ∧
    (∀ p, findByID s pid = some p → p.status.IsTerminal = true →
      updateStatusIfPending s pid ns now = (Except.ok false, s)) ∧
    (findByID s pid = none →
      updateStatusIfPending s pid ns now
        = (Except.error DomainErr.PaymentNotFound, s)) := by
  refine ⟨?_, ?_, ?_⟩
  · intro p hf hp
    rw [updateStatusIfPending_pending ns now hf hp]
    exact ⟨rfl, statusOf_update_self ns now hf, updatedAtOf_update_self ns now hf⟩
  · intro p hf hp
    exact updateStatusIfPending_terminal ns now hf hp
  · intro h
    exact updateStatusIfPending_notFound ns now h

/-- Witness for C2: the three contract cases evaluated on concrete stores. -/
theorem updateStatusIfPending_contract_witness :
    (updateStatusIfPending pendingStore 1 PaymentStatus.SUCCESS 5).1 = Except.ok true ∧
    statusOf (updateStatusIfPending pendingStore 1 PaymentStatus.SUCCESS 5).2 1
      = some PaymentStatus.SUCCESS ∧
    updatedAtOf (updateStatusIfPending pendingStore 1 PaymentStatus.SUCCESS 5).2 1 = some 5 ∧
    updateStatusIfPending settledStore 2 PaymentStatus.FAILED 5 = (Except.ok false, settledStore) ∧
    updateStatusIfPending settledStore 99 PaymentStatus.FAILED 5
      = (Except.error DomainErr.PaymentNotFound, settledStore) := by
  have h1 := (updateStatusIfPending_contract pendingStore 1 PaymentStatus.SUCCESS 5).1
    pendingPayment1 (by rfl) (by rfl)
  have h2 := (updateStatusIfPending_contract settledStore 2 PaymentStatus.FAILED 5).2.1
    settledPayment2 (by rfl) (by rfl)
  have h3 := (updateStatusIfPending_contract settledStore 99 PaymentStatus.FAILED 5).2.2 (by rfl)
  exact ⟨h1.1, h1.2.1, h1.2.2, h2, h3⟩

/-- C3: the settlement pipeline's state machine. Across a conditional
transition with a terminal target (the only targets `ProcessPayment` issues)
and across `ProcessPayment` itself: a status changes only from `PENDING` to
the written terminal status, a terminal status never changes, and a
transition attempt on a terminal payment is a successful no-op
(`(false, nil)`), not an error. -/
theorem settlement_state_machine_invariant
    (s : Store) (pid pid2 : Nat) (ns : PaymentStatus) (now : Nat)
    (dec fault : Bool) (hns : ns.IsTerminal = true) :
    (statusOf (updateStatusIfPending s pid ns now).2 pid2 ≠ statusOf s pid2 →
      statusOf s pid2 = some PaymentStatus.PENDING ∧
      statusOf (updateStatusIfPending s pid ns now).2 pid2 = some ns ∧
      ns.IsTerminal = true) ∧
    (∀ st, statusOf s pid2 = some st → st.IsTerminal = true →
      statusOf (updateStatusIfPending s pid ns now).2 pid2 = some st) ∧
    (∀ st, statusOf s pid = some st → st.IsTerminal = true →
      updateStatusIfPending s pid ns now = (Except.ok false, s)) ∧
    (statusOf (processPayment s pid dec fault now).2 pid2 ≠ statusOf s pid2 →
      statusOf s pid2 = some PaymentStatus.PENDING ∧
      statusOf (processPayment s pid dec fault now).2 pid2
        = some (decideStatus dec)) ∧
    (∀ st, statusOf s pid2 = some st → st.IsTerminal = true →
      statusOf (processPayment s pid dec fault now).2 pid2 = some st) := by
  refine ⟨?_, ?_, ?_, ?_, ?_⟩
  · intro hne
    rcases statusOf_update_cases s pid pid2 ns now with h | h
    · exact absurd h hne
    · exact ⟨h.1, h.2, hns⟩
  · intro st hst hterm
    rcases statusOf_update_cases s pid pid2 ns now with h | h
    · rw [h, hst]
    · rw [hst] at h
      cases PaymentStatus.ne_pending_of_isTerminal hterm (by injection h.1)
  · intro st hst hterm
    obtain ⟨p, hf, hp⟩ := statusOf_eq_some hst
    exact updateStatusIfPending_terminal ns now hf (hp ▸ hterm)
  · intro hne
    rcases statusOf_processPayment_cases s pid pid2 dec fault now with h | h
    · exact absurd h hne
    · exact h
  · intro st hst hterm
    rcases statusOf_processPayment_cases s pid pid2 dec fault now with h | h
    · rw [h, hst]
    · rw [hst] at h
      cases PaymentStatus.ne_pending_of_isTerminal hterm (by injection h.1)

/-- Witness for C3: a settled payment survives both a direct conditional
transition and a full `ProcessPayment` untouched, and the direct attempt is a
`(false, nil)` no-op. -/
theorem settlement_state_machine_invariant_witness :
    statusOf (updateStatusIfPending settledStore 2 PaymentStatus.FAILED 7).2 2
      = some PaymentStatus.SUCCESS ∧
    updateStatusIfPending settledStore 2 PaymentStatus.FAILED 7
      = (Except.ok false, settledStore) ∧
    statusOf (processPayment settledStore 2 false false 7).2 2
      = some PaymentStatus.SUCCESS := by
  have h := settlement_state_machine_invariant settledStore 2 2 PaymentStatus.FAILED 7
    false false rfl
  exact ⟨h.2.1 PaymentStatus.SUCCESS rfl rfl,
    h.2.2.1 PaymentStatus.SUCCESS rfl rfl,
    h.2.2.2.2 PaymentStatus.SUCCESS rfl rfl⟩

/-- Settlement attempts against a terminal payment all observe
`applied = false` and leave the table untouched. -/
theorem runAttempts_terminal {s : Store} {pid : Nat} {p : Payment}
    (hf : findByID s pid = some p) (hp : p.status.IsTerminal = true) :
    ∀ atts, runAttempts s pid atts = (List.replicate atts.length false, s) := by
  intro atts
  induction atts with
  | nil => rfl
  | cons a rest ih =>
    obtain ⟨d, t⟩ := a
    simp [runAttempts, updateStatusIfPending_terminal (decideStatus d) t hf hp, ih,
      List.replicate_succ]

/-- A replicated `false` contributes no `true` count. -/
theorem count_true_replicate_false (n : Nat) :
    (List.replicate n false).count true = 0 := by
  induction n with
  | zero => rfl
  | succ n ih => simp [List.replicate_succ, List.count_cons, ih]

/-- C1: starting from `PENDING`, in any sequence of settlement attempts via
the conditional transition exactly the first observes `applied = true`, all
later attempts observe `applied = false`, and the final persisted status is
the first attempt's outcome — never overwritten afterward. -/
theorem first_settlement_attempt_wins
    (s : Store) (pid : Nat) (p : Payment) (d : Bool) (t : Nat)
    (rest : List (Bool × Nat))
    (hf : findByID s pid = some p) (hp : p.status = PaymentStatus.PENDING) :
    (runAttempts s pid ((d, t) :: rest)).1
      = true :: List.replicate rest.length false ∧
    (runAttempts s pid ((d, t) :: rest)).1.count true = 1 ∧
    statusOf (runAttempts s pid ((d, t) :: rest)).2 pid
      = some (decideStatus d) := by
  have hstep := updateStatusIfPending_pending (decideStatus d) t hf hp
  have hf1 : findByID
      (s.map fun q =>
        if q.id == pid then { q with status := decideStatus d, updatedAt := t } else q) pid
      = some { p with status := decideStatus d, updatedAt := t } := by
    rw [findByID_map_preserving _ (setStatus_id pid (decideStatus d) t), hf]
    simp [findByID_eq_some_id hf]
  have habs := runAttempts_terminal hf1 (decideStatus_isTerminal d) rest
  have hmain : runAttempts s pid ((d, t) :: rest)
      = (true :: List.replicate rest.length false,
        s.map fun q =>
          if q.id == pid then { q with status := decideStatus d, updatedAt := t } else q) := by
    simp only [runAttempts, hstep, habs]
  refine ⟨by rw [hmain], by rw [hmain]; simp [List.count_cons, count_true_replicate_false], ?_⟩
  rw [hmain]
  exact statusOf_update_self (decideStatus d) t hf

/-- Witness for C1: three attempts on a fresh pending payment — the first
(success) applies, the later two do not, and the final status is `SUCCESS`. -/
theorem first_settlement_attempt_wins_witness :
    (runAttempts pendingStore 1 [(true, 3), (false, 4), (true, 5)]).1
      = [true, false, false] ∧
    (runAttempts pendingStore 1 [(true, 3), (false, 4), (true, 5)]).1.count true = 1 ∧
    statusOf (runAttempts pendingStore 1 [(true, 3), (false, 4), (true, 5)]).2 1
      = some PaymentStatus.SUCCESS := by
  have h := first_settlement_attempt_wins pendingStore 1 pendingPayment1 true 3
    [(false, 4), (true, 5)] (by rfl) rfl
  simpa [List.replicate] using h

/-- C4: redelivering a settlement task for an already-terminal payment leaves
the store unchanged and the worker acknowledges the task (the `applied=false`
path of `ProcessPayment` returns nil, which the worker Acks), rather than
retrying it. -/
theorem redelivery_after_terminal_acks_without_change
    (s : Store) (d : Delivery) (p : Payment) (dec : Bool) (now : Nat)
    (hparse : d.parseOk = true) (hretry : d.retryCount ≤ 3)
    (hf : findByID s d.paymentID = some p) (hp : p.status.IsTerminal = true) :
    workerHandle s d dec false now
      = { action := WorkerAction.ack, store := s, processCalled := true } := by
  have hr : ¬ d.retryCount > 3 := by omega
  simp [workerHandle, processMessageWithRetry, hparse, hr, processPayment,
    getByID, hf, updateStatusIfPending_terminal (decideStatus dec) now hf hp]

/-- Witness for C4: a redelivered task for the settled payment is Acked and
the store is unchanged. -/
theorem redelivery_after_terminal_acks_witness :
    workerHandle settledStore { parseOk := true, paymentID := 2, retryCount := 1 } true false 9
      = { action := WorkerAction.ack, store := settledStore, processCalled := true } :=
  redelivery_after_terminal_acks_without_change settledStore
    { parseOk := true, paymentID := 2, retryCount := 1 } settledPayment2 true 9
    rfl (by decide) (by rfl) (by rfl)

/-- C6: a delivery whose retry counter exceeds the maximum (3) is routed to the
dead-letter queue before `ProcessPayment` runs: no payment fetch, no decision,
no conditional transition. -/
theorem poison_message_dead_lettered_without_settlement
    (s : Store) (d : Delivery) (dec fault : Bool) (now : Nat)
    (hparse : d.parseOk = true) (hretry : d.retryCount > 3) :
    workerHandle s d dec fault now
      = { action := WorkerAction.deadLetter, store := s, processCalled := false } := by
  simp [workerHandle, processMessageWithRetry, hparse, hretry]

/-- Witness for C6: a delivery with retry count 4 is dead-lettered with the
store untouched and `ProcessPayment` never invoked. -/
theorem poison_message_dead_lettered_witness :
    workerHandle pendingStore { parseOk := true, paymentID := 1, retryCount := 4 } true false 9
      = { action := WorkerAction.deadLetter, store := pendingStore, processCalled := false } :=
  poison_message_dead_lettered_without_settlement pendingStore
    { parseOk := true, paymentID := 1, retryCount := 4 } true false 9 rfl (by decide)

/-- C9: a delivery whose payload fails to deserialize is routed directly to
the dead-letter queue — for any retry counter, so the settlement retry budget
is untouched — with the store unchanged and `ProcessPayment` never invoked. -/
theorem malformed_payload_dead_lettered_directly
    (s : Store) (d : Delivery) (dec fault : Bool) (now : Nat)
    (hparse : d.parseOk = false) :
    workerHandle s d dec fault now
      = { action := WorkerAction.deadLetter, store := s, processCalled := false } := by
  simp [workerHandle, processMessageWithRetry, hparse]

/-- Witness for C9: a fresh (attempt 0) malformed delivery is dead-lettered
immediately. -/
theorem malformed_payload_dead_lettered_witness :
    workerHandle pendingStore { parseOk := false, paymentID := 1, retryCount := 0 } true false 9
      = { action := WorkerAction.deadLetter, store := pendingStore, processCalled := false } :=
  malformed_payload_dead_lettered_directly pendingStore
    { parseOk := false, paymentID := 1, retryCount := 0 } true false 9 rfl

/-- C5 (code bug evidence): a first delivery (retry counter 0, budget
remaining) that hits a transient store error is Nacked with requeue = false —
routed straight to the dead-letter queue, with the payment left `PENDING` —
instead of being redelivered with an incremented attempt as the spec requires.
The `retry_count` header increment in `processMessageWithRetry` is a local map
write that is discarded by the requeue-free Nack. -/
theorem transient_store_error_dead_letters_immediately :
    workerHandle pendingStore { parseOk := true, paymentID := 1, retryCount := 0 } true true 9
      = { action := WorkerAction.deadLetter, store := pendingStore, processCalled := true } ∧
    statusOf pendingStore 1 = some PaymentStatus.PENDING := by
  exact ⟨rfl, rfl⟩

/-- A zero reference count means no row carries the reference. -/
theorem refCount_eq_zero_iff (s : Store) (ref : String) :
    refCount s ref = 0 ↔ ∀ q ∈ s, ¬ q.reference = ref := by
  simp [refCount, List.countP_eq_zero]

/-- With no row carrying the reference, the duplicate lookup misses. -/
theorem getByReference_none_of_refCount_zero {s : Store} {ref : String}
    (h : refCount s ref = 0) :
    getByReference s ref = Except.error DomainErr.PaymentNotFound := by
  rw [getByReference]
  have hn : s.find? (fun p => p.reference == ref) = none := by
    rw [List.find?_eq_none]
    intro x hx
    simpa using (refCount_eq_zero_iff s ref).1 h x hx
  rw [hn]

/-- With a row carrying the reference, the duplicate lookup hits. -/
theorem getByReference_ok_of_refCount_ne {s : Store} {ref : String}
    (h : refCount s ref ≠ 0) : ∃ p, getByReference s ref = Except.ok p := by
  have hex : ∃ x, x ∈ s ∧ (x.reference == ref) = true := by
    simpa using List.countP_pos_iff.mp (Nat.pos_of_ne_zero h)
  have hs : (s.find? (fun p => p.reference == ref)).isSome := by
    rw [List.find?_isSome]; exact hex
  cases hf : s.find? (fun p => p.reference == ref) with
  | none => rw [hf] at hs; cases hs
  | some p => exact ⟨p, by rw [getByReference, hf]⟩

/-- The uniqueness scan of `create` finds nothing when the count is zero. -/
theorem any_ref_false_of_refCount_zero {s : Store} {ref : String}
    (h : refCount s ref = 0) :
    s.any (fun q => q.reference == ref) = false := by
  rw [List.any_eq_false]
  intro x hx
  simpa using (refCount_eq_zero_iff s ref).1 h x hx

/-- Behaviour of `create` on a fresh reference: the row is inserted. -/
theorem create_fresh {s : Store} {p : Payment}
    (h : refCount s p.reference = 0) :
    create s p = (Except.ok (), s ++ [p]) := by
  simp [create, any_ref_false_of_refCount_zero h]

/-- Behaviour of `create` on a colliding reference: `ErrPaymentAlreadyExists`, no insert. -/
theorem create_conflict {s : Store} {p : Payment}
    (h : refCount s p.reference ≠ 0) :
    create s p = (Except.error DomainErr.PaymentAlreadyExists, s) := by
  have ha : s.any (fun q => q.reference == p.reference) = true := by
    rw [List.any_eq_true]
    simpa using List.countP_pos_iff.mp (Nat.pos_of_ne_zero h)
  simp [create, ha]

/-- Inserting one row adjusts the reference count by its own match. -/
theorem refCount_append (s : Store) (p : Payment) (ref : String) :
    refCount (s ++ [p]) ref
      = refCount s ref + (if p.reference = ref then 1 else 0) := by
  simp [refCount, List.countP_append, List.countP_cons]

/-- A row appended under a fresh id is found by its id. -/
theorem findByID_append_self (s : Store) (p : Payment)
    (h : findByID s p.id = none) :
    findByID (s ++ [p]) p.id = some p := by
  rw [findByID, List.find?_append,
    show s.find? (fun q => q.id == p.id) = none from h]
  simp

/-- C8: in `CreatePayment` the settlement task is published only after the
payment row is committed — any published event in the trace is preceded by the
commit of the same payment — and when the publish fails after the commit the
payment is not rolled back: the call still returns the created payment and the
row stays durable in `PENDING`. `hid` states the generated UUID is fresh, as
`uuid.New()` provides. -/
theorem publish_only_after_commit
    (s : Store) (req : CreatePaymentRequest) (newID now : Nat) (publishOk : Bool)
    (hid : findByID s newID = none) :
    (∀ pid,
      Event.published pid ∈ (serviceCreatePayment s req newID now publishOk).2.2 →
      (serviceCreatePayment s req newID now publishOk).2.2
        = [Event.committed pid, Event.published pid]) ∧
    (publishOk = false → req.Validate = none → refCount s req.reference = 0 →
      (serviceCreatePayment s req newID now publishOk).1
        = Except.ok (buildPayment req newID now) ∧
      statusOf (serviceCreatePayment s req newID now publishOk).2.1 newID
        = some PaymentStatus.PENDING ∧
      (serviceCreatePayment s req newID now publishOk).2.2
        = [Event.committed newID]) := by
  constructor
  · intro pid hmem
    cases hv : req.Validate with
    | some msg => simp [serviceCreatePayment, hv] at hmem
    | none =>
      cases hg : getByReference s req.reference with
      | ok p0 => simp [serviceCreatePayment, hv, hg] at hmem
      | error e0 =>
        rcases hc : create s (buildPayment req newID now) with ⟨r, s'⟩
        cases r with
        | error e => simp [serviceCreatePayment, hv, hg, hc] at hmem
        | ok v =>
          cases publishOk with
          | false => simp [serviceCreatePayment, hv, hg, hc] at hmem
          | true =>
            simp only [serviceCreatePayment, hv, hg, hc, if_pos rfl] at hmem ⊢
            simp at hmem
            simp [hmem]
  · intro hpub hv h0
    have hg := getByReference_none_of_refCount_zero h0
    have hc : create s (buildPayment req newID now)
        = (Except.ok (), s ++ [buildPayment req newID now]) :=
      create_fresh (by simpa [buildPayment] using h0)
    subst hpub
    refine ⟨?_, ?_, ?_⟩
    · simp only [serviceCreatePayment, hv, hg, hc]
    · have hfind : findByID (s ++ [buildPayment req newID now]) newID
          = some (buildPayment req newID now) :=
        findByID_append_self s (buildPayment req newID now) hid
      simp only [serviceCreatePayment, hv, hg, hc]
      rw [statusOf, hfind]
      rfl
    · simp only [serviceCreatePayment, hv, hg, hc]
      rfl

/-- Witness for C8: with the broker down (`publishOk = false`), creating the
sample payment on an empty store still succeeds, leaves the row `PENDING`,
and the trace holds the commit alone. -/
theorem publish_only_after_commit_witness :
    (serviceCreatePayment [] sampleRequest 7 3 false).1
      = Except.ok (buildPayment sampleRequest 7 3) ∧
    statusOf (serviceCreatePayment [] sampleRequest 7 3 false).2.1 7
      = some PaymentStatus.PENDING ∧
    (serviceCreatePayment [] sampleRequest 7 3 false).2.2
      = [Event.committed 7] := by
  exact (publish_only_after_commit [] sampleRequest 7 3 false rfl).2 rfl (by decide) rfl

/-- C10: the large-ETB business rule in `Validate`: an ETB request with amount
above 100000 and an empty description is rejected (an error is returned, so
`CreatePayment` creates nothing), while an otherwise-valid request with a
non-empty description, or in USD, or with amount at most 100000, passes
validation. -/
theorem large_etb_requires_description (req : CreatePaymentRequest) :
    (req.currency = Currency.ETB → req.amount > 100000 → req.description = "" →
      (req.Validate).isSome = true) ∧
    (0 < req.amount → 5 ≤ req.reference.length → req.reference.length ≤ 50 →
      (req.description ≠ "" ∨ req.currency = Currency.USD ∨ req.amount ≤ 100000) →
      req.Validate = none) ∧
    (∀ s newID now publishOk msg, req.Validate = some msg →
      serviceCreatePayment s req newID now publishOk
        = (Except.error (DomainErr.validation msg), s, [])) := by
  refine ⟨?_, ?_, ?_⟩
  · intro hc ha hd
    rw [CreatePaymentRequest.Validate]
    split
    · rfl
    split
    · rfl
    split
    · rfl
    split
    · rfl
    split
    · rfl
    rename_i h
    exact absurd ⟨hc, ha, hd⟩ h
  · intro ha hl1 hl2 hor
    rw [CreatePaymentRequest.Validate,
      if_neg (not_le.mpr ha),
      if_neg (by simp [Currency.isValid_eq_true]),
      if_neg (by omega),
      if_neg (by omega),
      if_neg ?_]
    rintro ⟨h1, h2, h3⟩
    rcases hor with h | h | h
    · exact h h3
    · exact absurd (h1.symm.trans h) (by decide)
    · exact absurd h2 (not_lt.mpr h)
  · intro s newID now publishOk msg hv
    simp [serviceCreatePayment, hv]

/-- Witness for C10: the rule evaluated at concrete requests — a 200000 ETB
request with empty description is rejected and creates nothing, while the
sample request passes validation. -/
theorem large_etb_requires_description_witness :
    (({ sampleRequest with amount := 200000, description := "" }
        : CreatePaymentRequest).Validate).isSome = true ∧
    sampleRequest.Validate = none ∧
    serviceCreatePayment [] { sampleRequest with amount := 200000, description := "" } 7 0 true
      = (Except.error
          (DomainErr.validation "description is required for large ETB payments"),
        [], []) := by
  have hbig : ({ sampleRequest with amount := 200000, description := "" }
      : CreatePaymentRequest).Validate
      = some "description is required for large ETB payments" := by decide
  refine ⟨(large_etb_requires_description _).1 rfl (by decide) rfl,
    (large_etb_requires_description sampleRequest).2.1 (by decide) (by decide) (by decide)
      (Or.inr (Or.inr (by decide))), ?_⟩
  exact (large_etb_requires_description _).2.2 [] 7 0 true _ hbig

/-- A call finished with `AlreadyExists` is not a successful one. -/
theorem okBool_eq_false_of_ae {ph : CallPhase} (h : aeBool ph = true) :
    okBool ph = false := by
  cases ph with
  | toCheck => cases h
  | toInsert => cases h
  | done r =>
    cases r with
    | ok v => cases h
    | error e => rfl

/-- One atomic step of a create call for a `PENDING` payment carrying the
contended reference preserves the per-call clauses of the race invariant, and
can only grow the reference count. `kOther` stands for the other call's
success count. -/
theorem stepCall_inv (p : Payment) (ref : String) (hpr : p.reference = ref)
    (hps : p.status = PaymentStatus.PENDING)
    (s : Store) (ph : CallPhase) (kOther : Nat)
    (h1 : refCount s ref = (okBool ph).toNat + kOther)
    (h2 : refCount s ref ≤ 1)
    (h3 : doneBool ph = true → okBool ph = true ∨ aeBool ph = true)
    (h5 : aeBool ph = true → refCount s ref ≠ 0)
    (h7 : ∀ q ∈ s, q.reference = ref → q.status = PaymentStatus.PENDING) :
    refCount (stepCreateCall s p ph).2 ref
      = (okBool (stepCreateCall s p ph).1).toNat + kOther ∧
    refCount (stepCreateCall s p ph).2 ref ≤ 1 ∧
    (doneBool (stepCreateCall s p ph).1 = true →
      okBool (stepCreateCall s p ph).1 = true ∨
      aeBool (stepCreateCall s p ph).1 = true) ∧
    (aeBool (stepCreateCall s p ph).1 = true →
      refCount (stepCreateCall s p ph).2 ref ≠ 0) ∧
    (∀ q ∈ (stepCreateCall s p ph).2, q.reference = ref →
      q.status = PaymentStatus.PENDING) ∧
    refCount s ref ≤ refCount (stepCreateCall s p ph).2 ref := by
  cases ph with
  | toCheck =>
    by_cases h0 : refCount s ref = 0
    · have hg := @getByReference_none_of_refCount_zero s ref h0
      have hstep : stepCreateCall s p CallPhase.toCheck = (CallPhase.toInsert, s) := by
        simp [stepCreateCall, hpr, hg]
      rw [hstep]
      exact ⟨by simpa [okBool] using h1, h2, by simp [doneBool], by simp [aeBool],
        h7, le_refl _⟩
    · obtain ⟨q, hq⟩ := getByReference_ok_of_refCount_ne h0
      have hstep : stepCreateCall s p CallPhase.toCheck
          = (CallPhase.done (Except.error DomainErr.PaymentAlreadyExists), s) := by
        simp [stepCreateCall, hpr, hq]
      rw [hstep]
      exact ⟨by simpa [okBool] using h1, h2, fun _ => Or.inr rfl, fun _ => h0,
        h7, le_refl _⟩
  | toInsert =>
    by_cases h0 : refCount s ref = 0
    · have hc : create s p = (Except.ok (), s ++ [p]) :=
        create_fresh (by rw [hpr]; exact h0)
      have hstep : stepCreateCall s p CallPhase.toInsert
          = (CallPhase.done (Except.ok ()), s ++ [p]) := by
        simp [stepCreateCall, hc]
      simp only [hstep]
      have hcount : refCount (s ++ [p]) ref = 1 := by
        rw [refCount_append, h0, if_pos hpr]
      have hk : kOther = 0 := by
        simp [okBool] at h1
        omega
      refine ⟨?_, ?_, fun _ => Or.inl rfl, ?_, ?_, ?_⟩
      · simp [okBool, hcount, hk]
      · omega
      · intro _
        omega
      · intro q hq hqr
        rcases List.mem_append.mp hq with h | h
        · exact h7 q h hqr
        · have hqp : q = p := by simpa using h
          rw [hqp]
          exact hps
      · omega
    · have hc : create s p = (Except.error DomainErr.PaymentAlreadyExists, s) :=
        create_conflict (by rw [hpr]; exact h0)
      have hstep : stepCreateCall s p CallPhase.toInsert
          = (CallPhase.done (Except.error DomainErr.PaymentAlreadyExists), s) := by
        simp [stepCreateCall, hc]
      rw [hstep]
      exact ⟨by simpa [okBool] using h1, h2, fun _ => Or.inr rfl, fun _ => h0,
        h7, le_refl _⟩
  | done r =>
    exact ⟨h1, h2, h3, h5, h7, le_refl _⟩

/-- The race invariant is preserved by every interleaving step. -/
theorem raceInv_step {pA pB : Payment} {ref : String}
    (hA : pA.reference = ref) (hB : pB.reference = ref)
    (hAp : pA.status = PaymentStatus.PENDING)
    (hBp : pB.status = PaymentStatus.PENDING)
    (st : RaceState) (hinv : raceInv ref st) (b : Bool) :
    raceInv ref (raceStep pA pB st b) := by
  obtain ⟨h1, h2, h3, h4, h5, h6, h7⟩ := hinv
  cases b with
  | true =>
    have hs := stepCall_inv pA ref hA hAp st.store st.phaseA
      ((okBool st.phaseB).toNat) h1 h2 h3 h5 h7
    simp only [raceStep, raceInv]
    refine ⟨hs.1, hs.2.1, hs.2.2.1, h4, hs.2.2.2.1, ?_, hs.2.2.2.2.1⟩
    intro hae
    have hne := h6 hae
    have hmono := hs.2.2.2.2.2
    omega
  | false =>
    have h1' : refCount st.store ref
        = (okBool st.phaseB).toNat + (okBool st.phaseA).toNat := by omega
    have hs := stepCall_inv pB ref hB hBp st.store st.phaseB
      ((okBool st.phaseA).toNat) h1' h2 h4 h6 h7
    simp only [raceStep, raceInv]
    refine ⟨?_, hs.2.1, h3, hs.2.2.1, ?_, hs.2.2.2.1, hs.2.2.2.2.1⟩
    · have hcnt := hs.1
      omega
    · intro hae
      have hne := h5 hae
      have hmono := hs.2.2.2.2.2
      omega

/-- The race invariant survives any interleaving schedule. -/
theorem raceInv_run {pA pB : Payment} {ref : String}
    (hA : pA.reference = ref) (hB : pB.reference = ref)
    (hAp : pA.status = PaymentStatus.PENDING)
    (hBp : pB.status = PaymentStatus.PENDING)
    (bs : List Bool) (st : RaceState) (hinv : raceInv ref st) :
    raceInv ref (raceRun pA pB st bs) := by
  induction bs generalizing st with
  | nil => exact hinv
  | cons b bs ih => exact ih _ (raceInv_step hA hB hAp hBp st hinv b)

/-- C7: `CreatePayment` inserts a new `PENDING` payment, and a reference
collision fails with `AlreadyExists` atomically with the uniqueness check
(the `ON CONFLICT` insert). For two concurrent create calls with the same
reference, under every interleaving of their atomic store operations in which
both calls finish: exactly one call succeeds, the other fails with
`AlreadyExists`, exactly one payment with that reference exists — in state
`PENDING` — and any further insert with the reference fails, so at most one
payment per reference ever exists. -/
theorem concurrent_create_exactly_one_succeeds
    (pA pB : Payment) (ref : String) (s : Store) (sched : List Bool)
    (hA : pA.reference = ref) (hB : pB.reference = ref)
    (hAp : pA.status = PaymentStatus.PENDING)
    (hBp : pB.status = PaymentStatus.PENDING)
    (h0 : refCount s ref = 0)
    (hdA : doneBool
      (raceRun pA pB ⟨s, CallPhase.toCheck, CallPhase.toCheck⟩ sched).phaseA = true)
    (hdB : doneBool
      (raceRun pA pB ⟨s, CallPhase.toCheck, CallPhase.toCheck⟩ sched).phaseB = true) :
    ((okBool (raceRun pA pB ⟨s, CallPhase.toCheck, CallPhase.toCheck⟩ sched).phaseA
        = true ∧
      aeBool (raceRun pA pB ⟨s, CallPhase.toCheck, CallPhase.toCheck⟩ sched).phaseB
        = true) ∨
     (aeBool (raceRun pA pB ⟨s, CallPhase.toCheck, CallPhase.toCheck⟩ sched).phaseA
        = true ∧
      okBool (raceRun pA pB ⟨s, CallPhase.toCheck, CallPhase.toCheck⟩ sched).phaseB
        = true)) ∧
    refCount (raceRun pA pB ⟨s, CallPhase.toCheck, CallPhase.toCheck⟩ sched).store ref
      = 1 ∧
    (∀ q ∈ (raceRun pA pB ⟨s, CallPhase.toCheck, CallPhase.toCheck⟩ sched).store,
      q.reference = ref → q.status = PaymentStatus.PENDING) ∧
    (∀ p', p'.reference = ref →
      create (raceRun pA pB ⟨s, CallPhase.toCheck, CallPhase.toCheck⟩ sched).store p'
        = (Except.error DomainErr.PaymentAlreadyExists,
          (raceRun pA pB ⟨s, CallPhase.toCheck, CallPhase.toCheck⟩ sched).store)) := by
  have hinit : raceInv ref ⟨s, CallPhase.toCheck, CallPhase.toCheck⟩ := by
    simp only [raceInv]
    refine ⟨by simpa [okBool] using h0, by omega, by simp [doneBool],
      by simp [doneBool], by simp [aeBool], by simp [aeBool], ?_⟩
    intro q hq hqr
    exact absurd hqr ((refCount_eq_zero_iff s ref).1 h0 q hq)
  obtain ⟨h1, h2, h3, h4, h5, h6, h7⟩ :=
    raceInv_run hA hB hAp hBp sched ⟨s, CallPhase.toCheck, CallPhase.toCheck⟩ hinit
  rcases h3 hdA with hokA | haeA
  · rcases h4 hdB with hokB | haeB
    · exfalso
      rw [hokA, hokB] at h1
      simp at h1
      omega
    · have hokB := okBool_eq_false_of_ae haeB
      rw [hokA, hokB] at h1
      simp at h1
      refine ⟨Or.inl ⟨hokA, haeB⟩, h1, h7, ?_⟩
      intro p' hp'
      exact create_conflict (by rw [hp']; omega)
  · have hokA := okBool_eq_false_of_ae haeA
    rcases h4 hdB with hokB | haeB
    · rw [hokA, hokB] at h1
      simp at h1
      refine ⟨Or.inr ⟨haeA, hokB⟩, h1, h7, ?_⟩
      intro p' hp'
      exact create_conflict (by rw [hp']; omega)
    · exfalso
      have hokB := okBool_eq_false_of_ae haeB
      rw [hokA, hokB] at h1
      simp at h1
      exact h5 haeA h1

/-- Witness for C7: the fully racing schedule (both duplicate checks pass
before either insert) on an empty store — exactly one call succeeds, the
other is rejected, and exactly one row with the reference remains. -/
theorem concurrent_create_witness :
    ((okBool (raceRun wpA wpB ⟨[], CallPhase.toCheck, CallPhase.toCheck⟩
        [true, false, true, false]).phaseA = true ∧
      aeBool (raceRun wpA wpB ⟨[], CallPhase.toCheck, CallPhase.toCheck⟩
        [true, false, true, false]).phaseB = true) ∨
     (aeBool (raceRun wpA wpB ⟨[], CallPhase.toCheck, CallPhase.toCheck⟩
        [true, false, true, false]).phaseA = true ∧
      okBool (raceRun wpA wpB ⟨[], CallPhase.toCheck, CallPhase.toCheck⟩
        [true, false, true, false]).phaseB = true)) ∧
    refCount (raceRun wpA wpB ⟨[], CallPhase.toCheck, CallPhase.toCheck⟩
        [true, false, true, false]).store "CBE-2023-001234" = 1 := by
  have h := concurrent_create_exactly_one_succeeds wpA wpB "CBE-2023-001234" []
    [true, false, true, false] rfl rfl rfl rfl rfl (by decide) (by decide)
  exact ⟨h.1, h.2.1⟩
